import Mathlib

/-!
Verification development for `caption_stack.py` (function
`merge_screenshots_with_subtitles`): the program lists the `.png` files of a
directory, sorts them by filename, rescales every image after the first to the
first image's width, and stacks the first image followed by the bottom
"subtitle band" of each later image onto one white canvas, which it saves.

The embedding below models the PIL image operations used by the source
(`Image.new`, `crop`, `paste`, `resize`) on an `ImageBuffer` of explicit
dimensions and a pixel function, and models the floating-point arithmetic of
the source (`int(h * (tw / w))`, `int(h0 / subtitle_ratio)`) by the exact
rational/natural computations they implement: truncation of a nonnegative
quotient is the floor.  The Lanczos resampling kernel has no arithmetic
content relevant to the program's geometry, so it is a parameter of the
development: every resize produces an image of exactly the requested size
whose pixels are supplied by the kernel, which is what PIL's `resize`
guarantees.
-/

namespace CaptionStack

/-- An RGB pixel value, abstracted to a natural number. -/
abbrev Pixel := Nat

/-- A decoded raster image: dimensions plus pixel data, as held by PIL.
Pixel lookups are meaningful on `0 ≤ x < width`, `0 ≤ y < height`. -/
structure ImageBuffer where
  width : Nat
  height : Nat
  pixel : Nat → Nat → Pixel

instance : Inhabited ImageBuffer := ⟨⟨0, 0, fun _ _ => 0⟩⟩

/-- A resampling kernel: given the source image, the requested size and a
target coordinate, produce the resampled pixel.  The source uses
`Image.Resampling.LANCZOS`; the claims under study do not depend on the kernel
arithmetic, only on the fact that `resize` yields the requested dimensions. -/
abbrev ResampleKernel := ImageBuffer → Nat → Nat → Nat → Nat → Pixel

/-- PIL `img.resize((w, h), kernel)`: an image of exactly the requested size,
pixels given by the resampling kernel. -/
def resize (k : ResampleKernel) (img : ImageBuffer) (w h : Nat) : ImageBuffer :=
  { width := w, height := h, pixel := fun x y => k img w h x y }

/-- The background color of `Image.new('RGB', ..., 'white')`. -/
def whitePixel : Pixel := 0xFFFFFF

/-- The fill PIL uses for crop regions that fall outside the source image:
black, i.e. zero in every channel. -/
def blackPixel : Pixel := 0

/-- PIL `Image.new('RGB', (w, h), c)`: a blank canvas of the given size. -/
def imageNew (w h : Nat) (c : Pixel) : ImageBuffer :=
  { width := w, height := h, pixel := fun _ _ => c }

/-- PIL `img.crop((left, top, right, bottom))`: the result has size
`(right - left, bottom - top)`; pixel `(x, y)` of the result is pixel
`(left + x, top + y)` of the source, and coordinates outside the source
(as happens when `top` is negative) read as black.  Box coordinates are
integers and may be negative. -/
def crop (img : ImageBuffer) (left top right bottom : Int) : ImageBuffer :=
  { width := (right - left).toNat
    height := (bottom - top).toNat
    pixel := fun x y =>
      if 0 ≤ left + x ∧ left + x < (img.width : Int) ∧
          0 ≤ top + y ∧ top + y < (img.height : Int) then
        img.pixel (left + (x : Int)).toNat (top + (y : Int)).toNat
      else blackPixel }

/-- PIL `base.paste(img, (x0, y0))` (with nonnegative offsets, the only case
the source produces): the base keeps its dimensions; pixels inside the pasted
rectangle come from `img`, the rest are unchanged. -/
def paste (base img : ImageBuffer) (x0 y0 : Nat) : ImageBuffer :=
  { width := base.width
    height := base.height
    pixel := fun x y =>
      if x0 ≤ x ∧ x < x0 + img.width ∧ y0 ≤ y ∧ y < y0 + img.height then
        img.pixel (x - x0) (y - y0)
      else base.pixel x y }

/-- The error raised at line 24 of the source when fewer than two qualifying
images are found (`ValueError("資料夾中至少需要兩張PNG圖片")`, the spec's
`InputError("at least two images required")`). -/
inductive MergeError where
  | inputError
deriving DecidableEq

/-- A directory entry: filename, a piece of file metadata (creation time,
which the source never reads), and the decoded image content obtained by
`Image.open` on that name. -/
structure DirFile where
  name : String
  ctime : Nat
  content : ImageBuffer

/-- The observable outcome of a successful run: the canvas saved to
`output_path` (line 75), the filenames reported as processed (line 76), and
the value the Python function returns — it has no `return` statement, so this
is `None`. -/
structure MergeSuccess where
  saved : ImageBuffer
  processed : List String
  returnValue : Option ImageBuffer

/-- Line 20 of the source: `f.lower().endswith('.png')`, i.e. the lowercased
filename ends with the image extension. -/
def qualifies (name : String) : Bool :=
  List.isSuffixOf ".png".data (name.data.map Char.toLower)

/-- The filename ordering used by `image_files.sort()` at line 21: ascending
codepoint-lexicographic comparison of the names (Python compares strings by
codepoints; Lean's `List Char` order is the same lexicographic order). -/
def nameLe (a b : DirFile) : Prop := a.name.data ≤ b.name.data

instance : DecidableRel nameLe :=
  fun a b => inferInstanceAs (Decidable (a.name.data ≤ b.name.data))

instance : IsTotal DirFile nameLe := ⟨fun a b => le_total a.name.data b.name.data⟩

instance : IsTrans DirFile nameLe := ⟨fun _ _ _ h1 h2 => le_trans h1 h2⟩

/-- Lines 20–21 of the source: keep the directory entries whose name ends
case-insensitively in `.png`, sorted ascending by filename.  Python's
`list.sort()` is a stable sort by the comparison key; `List.insertionSort`
is a stable sort by the same key. -/
def qualifying (dir : List DirFile) : List DirFile :=
  List.insertionSort nameLe (dir.filter (fun f => qualifies f.name))

/-- Lines 34–43 of the source, the body of the normalization loop: an image
whose width differs from `target_width` is resized to
`(target_width, int(height * (target_width / width)))` — exact value
`⌊height · target_width / width⌋`, here `height * target_width / width` in
truncating natural division — and an image already at `target_width` passes
through unchanged. -/
def normalizeImage (k : ResampleKernel) (target_width : Nat) (img : ImageBuffer) : ImageBuffer :=
  if img.width ≠ target_width then
    resize k img target_width (img.height * target_width / img.width)
  else img

/-- Line 46 of the source: `subtitle_height = int(h0 / subtitle_ratio)`,
the truncated (for the nonnegative quotients produced by a positive ratio,
floored) quotient of the first image's height by the subtitle ratio. -/
def subtitleHeight (h0 : Nat) ( subtitle_ratio : ℚ) : Nat :=
  (⌊(h0 : ℚ) / subtitle_ratio⌋).toNat

/-- Lines 64–69 of the source: the band
`img.crop((0, img.height - subtitle_height, target_width, img.height))`. -/
def subtitleCrop (target_width sh : Nat) (img : ImageBuffer) : ImageBuffer :=
  crop img 0 ((img.height : Int) - (sh : Int)) (target_width : Int) (img.height : Int)

/-- Lines 59–72 of the source: `for i, img in enumerate(resized_images[1:], 1)`,
pasting the subtitle band of each image at
`y_position = h0 + subtitle_height * (i - 1)`, horizontal offset `0`. -/
def pasteSubtitles (target_width sh h0 : Nat) : Nat → ImageBuffer → List ImageBuffer → ImageBuffer
  | _, canvas, [] => canvas
  | i, canvas, img :: restImgs =>
      pasteSubtitles target_width sh h0 (i + 1)
        (paste canvas (subtitleCrop target_width sh img) 0 (h0 + sh * (i - 1))) restImgs

/-- Lines 27–79 of the source for the successful case, with `f0` the first
sorted file and `tail` the remaining sorted files: normalize the tail to the
first image's width, allocate the white canvas of size
`target_width × (h0 + subtitle_height * (count - 1))`, paste the first image
at the origin, paste every subtitle band, and report the processed names.
The Python function ends without `return`, so the returned value is `none`. -/
def mergeCore (k : ResampleKernel) (f0 : DirFile) (tail : List DirFile)
    ( subtitle_ratio : ℚ) : MergeSuccess :=
  { saved :=
      pasteSubtitles f0.content.width (subtitleHeight f0.content.height subtitle_ratio)
        f0.content.height 1
        (paste
          (imageNew f0.content.width
            (f0.content.height + subtitleHeight f0.content.height subtitle_ratio * tail.length)
            whitePixel)
          f0.content 0 0)
        ((tail.map (fun f => f.content)).map (normalizeImage k f0.content.width))
    processed := f0.name :: tail.map (fun f => f.name)
    returnValue := none }

/-- The whole of `merge_screenshots_with_subtitles` (lines 8–79): discover and
sort the `.png` files, fail with the input error when fewer than two qualify
(lines 23–24), and otherwise run the compositing pipeline. -/
def merge_screenshots_with_subtitles (k : ResampleKernel) (dir : List DirFile)
    ( subtitle_ratio : ℚ) : Except MergeError MergeSuccess :=
  match qualifying dir with
  | f0 :: f1 :: rest => Except.ok (mergeCore k f0 (f1 :: rest) subtitle_ratio)
  | _ => Except.error MergeError.inputError

/-! Concrete data used by the witnesses and counterexamples. -/

/-- A trivial resampling kernel, used to instantiate witnesses. -/
def kZero : ResampleKernel := fun _ _ _ _ _ => 0

/-- An 8×6 test image. -/
def imgA : ImageBuffer := ⟨8, 6, fun _ _ => 1⟩

/-- A second 8×6 test image. -/
def imgB : ImageBuffer := ⟨8, 6, fun _ _ => 2⟩

/-- Test file `a.png`. -/
def fA : DirFile := ⟨"a.png", 10, imgA⟩

/-- Test file `b.png`. -/
def fB : DirFile := ⟨"b.png", 5, imgB⟩

/-- A test directory listed out of filename order. -/
def dirW : List DirFile := [fB, fA]

example : qualifying dirW = [fA, fB] := rfl

example : qualifies "A.PNG" = true := rfl

example : qualifies "b.jpg" = false := rfl

example : subtitleHeight 12 5 = 2 := by
  simp only [subtitleHeight]
  norm_num
  rfl

/-! Helper lemmas about the compositing pipeline. -/

/-- The subtitle band spans the full normalized width. -/
theorem subtitleCrop_width (target_width sh : Nat) (img : ImageBuffer) :
    (subtitleCrop target_width sh img).width = target_width := by
  simp [subtitleCrop, crop]

/-- The subtitle band always has height `sh`, whatever the image height
(the crop box is `(·, h - sh, ·, h)`, so `bottom - top = sh` even when the
top coordinate is negative). -/
theorem subtitleCrop_height (target_width sh : Nat) (img : ImageBuffer) :
    (subtitleCrop target_width sh img).height = sh := by
  simp only [subtitleCrop, crop]
  omega

/-- Pasting subtitle bands never changes the canvas width. -/
theorem pasteSubtitles_width (target_width sh h0 : Nat) (l : List ImageBuffer) :
    ∀ (i : Nat) (c : ImageBuffer),
      (pasteSubtitles target_width sh h0 i c l).width = c.width := by
  induction l with
  | nil => intro i c; rfl
  | cons img restImgs ih =>
      intro i c
      rw [pasteSubtitles, ih]
      rfl

/-- Pasting subtitle bands never changes the canvas height. -/
theorem pasteSubtitles_height (target_width sh h0 : Nat) (l : List ImageBuffer) :
    ∀ (i : Nat) (c : ImageBuffer),
      (pasteSubtitles target_width sh h0 i c l).height = c.height := by
  induction l with
  | nil => intro i c; rfl
  | cons img restImgs ih =>
      intro i c
      rw [pasteSubtitles, ih]
      rfl

/-- Rows strictly above the first paste position of the subtitle loop are left
untouched by the whole loop: iteration `i` writes rows
`[h0 + sh * (i - 1), h0 + sh * (i - 1) + sh)` and later iterations write even
lower rows. -/
theorem pasteSubtitles_pixel_above (target_width sh h0 : Nat) (l : List ImageBuffer) :
    ∀ (i : Nat) (c : ImageBuffer) (x y : Nat), y < h0 + sh * (i - 1) →
      (pasteSubtitles target_width sh h0 i c l).pixel x y = c.pixel x y := by
  induction l with
  | nil => intro i c x y _; rfl
  | cons img restImgs ih =>
      intro i c x y hy
      rw [pasteSubtitles, ih (i + 1) _ x y
        (lt_of_lt_of_le hy (Nat.add_le_add_left
          (Nat.mul_le_mul_left sh (by omega)) h0))]
      simp only [paste]
      rw [if_neg]
      rw [subtitleCrop_height]
      intro hcontra
      omega

/-- The pixel content of the band pasted at loop position `i + j`: it is the
subtitle crop of the `j`-th image of the remaining list, and no later
iteration overwrites it. -/
theorem pasteSubtitles_pixel_band (target_width sh h0 : Nat) (l : List ImageBuffer) :
    ∀ (i : Nat) (c : ImageBuffer) (j : Nat) (hj : j < l.length) (x y : Nat),
      1 ≤ i → x < target_width → y < sh →
      (pasteSubtitles target_width sh h0 i c l).pixel x (h0 + sh * (i - 1 + j) + y)
        = (subtitleCrop target_width sh (l.get ⟨j, hj⟩)).pixel x y := by
  induction l with
  | nil => intro i c j hj; exact absurd hj (by simp)
  | cons img restImgs ih =>
      intro i c j hj x y hi hx hy
      obtain ⟨n, rfl⟩ : ∃ n, i = n + 1 := ⟨i - 1, by omega⟩
      match j with
      | 0 =>
          rw [pasteSubtitles]
          simp only [Nat.add_sub_cancel, Nat.add_zero]
          have hmul : sh * (n + 1) = sh * n + sh := Nat.mul_succ sh n
          rw [pasteSubtitles_pixel_above target_width sh h0 restImgs (n + 1 + 1) _ x _
            (by simp only [Nat.add_sub_cancel]; omega)]
          have hw := subtitleCrop_width target_width sh img
          have hh := subtitleCrop_height target_width sh img
          simp only [paste]
          rw [if_pos ⟨Nat.zero_le x, by omega, by omega, by omega⟩]
          simp only [Nat.sub_zero, Nat.add_sub_cancel_left, List.get]
      | Nat.succ m =>
          rw [pasteSubtitles]
          have hidx : n + 1 - 1 + (m + 1) = n + 1 + 1 - 1 + m := by omega
          rw [hidx, ih (n + 1 + 1) _ m (by simpa using hj) x y (by omega) hx hy]
          rfl

/-- The first image's pixels occupy the canvas region
`[0, width) × [0, height)` after the whole compositing loop: the loop only
writes rows at `h0` and below. -/
theorem mergeCore_first_region (k : ResampleKernel) (f0 : DirFile) (tail : List DirFile)
    ( subtitle_ratio : ℚ) (x y : Nat) (hx : x < f0.content.width)
    (hy : y < f0.content.height) :
    (mergeCore k f0 tail subtitle_ratio).saved.pixel x y = f0.content.pixel x y := by
  simp only [mergeCore]
  rw [pasteSubtitles_pixel_above _ _ _ _ 1 _ x y (by simpa using hy)]
  simp only [paste]
  rw [if_pos ⟨Nat.zero_le x, by omega, Nat.zero_le y, by omega⟩]
  simp

/-- Unfolding of the merge on a directory with at least two qualifying
images. -/
theorem merge_eq_ok (k : ResampleKernel) (dir : List DirFile) ( subtitle_ratio : ℚ)
    (f0 f1 : DirFile) (rest : List DirFile)
    (h : qualifying dir = f0 :: f1 :: rest) :
    merge_screenshots_with_subtitles k dir subtitle_ratio
      = Except.ok (mergeCore k f0 (f1 :: rest) subtitle_ratio) := by
  unfold merge_screenshots_with_subtitles
  rw [h]

/-- Dimensions of the saved canvas. -/
theorem mergeCore_saved_width (k : ResampleKernel) (f0 : DirFile) (tail : List DirFile)
    ( subtitle_ratio : ℚ) :
    (mergeCore k f0 tail subtitle_ratio).saved.width = f0.content.width := by
  simp only [mergeCore]
  rw [pasteSubtitles_width]
  rfl

/-- Height of the saved canvas: first image height plus one band height per
remaining image. -/
theorem mergeCore_saved_height (k : ResampleKernel) (f0 : DirFile) (tail : List DirFile)
    ( subtitle_ratio : ℚ) :
    (mergeCore k f0 tail subtitle_ratio).saved.height
      = f0.content.height + subtitleHeight f0.content.height subtitle_ratio * tail.length := by
  simp only [mergeCore]
  rw [pasteSubtitles_height]
  rfl

/-! Further concrete data for witnesses and counterexamples. -/

/-- A non-image file, skipped by discovery. -/
def fJpg : DirFile := ⟨"b.jpg", 0, imgB⟩

/-- A directory with only one qualifying image. -/
def dirOne : List DirFile := [fA, fJpg]

/-- An 8×8 first image for the crop-underflow scenario. -/
def imgTall : ImageBuffer := ⟨8, 8, fun _ _ => 3⟩

/-- An 8×2 second image, shorter than the subtitle band. -/
def imgTiny : ImageBuffer := ⟨8, 2, fun _ _ => 4⟩

/-- File holding `imgTall`. -/
def fTall : DirFile := ⟨"a.png", 0, imgTall⟩

/-- File holding `imgTiny`. -/
def fTiny : DirFile := ⟨"b.png", 0, imgTiny⟩

/-- Directory for the crop-underflow scenario. -/
def dirTiny : List DirFile := [fTall, fTiny]

/-- A 3×1 image whose rescale to width 5 distinguishes truncation from
rounding: the exact new height is 5/3 ≈ 1.67. -/
def imgNarrow : ImageBuffer := ⟨3, 1, fun _ _ => 5⟩

/-- The 400×300 image of the spec's resampling scenario. -/
def img400 : ImageBuffer := ⟨400, 300, fun _ _ => 6⟩

/-- The rescale height prescribed by the spec's words:
`round(originalHeight * targetWidth / originalWidth)`, standard rounding
toward the nearest integer.  Stated from the spec for comparison with the
source's `normalizeImage`. -/
def specRoundedHeight (origH target_width origW : Nat) : Int :=
  round ((origH * target_width : ℚ) / origW)

/-- Evaluation of the subtitle height at the witness inputs. -/
theorem subtitleHeight_6_3 : subtitleHeight 6 3 = 2 := by
  simp only [subtitleHeight]
  norm_num
  rfl

/-- Evaluation of the subtitle height at the crop-underflow witness inputs. -/
theorem subtitleHeight_8_2 : subtitleHeight 8 2 = 4 := by
  simp only [subtitleHeight]
  norm_num
  rfl

/-! The claims. -/

/-- C1: for every input directory containing N ≥ 2 qualifying images, the
output canvas has width exactly the first (sorted) image's width and height
exactly `firstHeight + subtitleHeight * (N - 1)`, where
`subtitleHeight = ⌊firstHeight / subtitleRatio⌋`. -/
theorem C1_output_dimensions (k : ResampleKernel) (dir : List DirFile)
    ( subtitle_ratio : ℚ) (f0 f1 : DirFile) (rest : List DirFile)
    (h : qualifying dir = f0 :: f1 :: rest) :
    ∃ s, merge_screenshots_with_subtitles k dir subtitle_ratio = Except.ok s ∧
      s.saved.width = f0.content.width ∧
      s.saved.height = f0.content.height
        + subtitleHeight f0.content.height subtitle_ratio * (rest.length + 1) := by
  refine ⟨_, merge_eq_ok k dir subtitle_ratio f0 f1 rest h, mergeCore_saved_width _ _ _ _, ?_⟩
  rw [mergeCore_saved_height]
  simp

/-- Witness for C1: a directory of two 8×6 images with ratio 3. -/
theorem C1_witness :
    ∃ s, merge_screenshots_with_subtitles kZero dirW 3 = Except.ok s ∧
      s.saved.width = 8 ∧
      s.saved.height = 6 + subtitleHeight 6 3 * 1 :=
  C1_output_dimensions kZero dirW 3 fA fB [] rfl

/-- C2: for every input set with N ≥ 2 images and every position `p` from 1 to
N−1 (sorted order), the band pasted onto the canvas is the crop rectangle
`(0, height − subtitleHeight, targetWidth, height)` of that image's normalized
buffer, pasted at horizontal offset 0 and vertical offset
`firstImage.height + subtitleHeight * (p − 1)`: every pixel of that canvas
region equals the corresponding pixel of the crop. -/
theorem C2_band_content (k : ResampleKernel) (dir : List DirFile) ( subtitle_ratio : ℚ)
    (f0 f1 : DirFile) (rest : List DirFile) (h : qualifying dir = f0 :: f1 :: rest)
    (p : Nat) (hp : 1 ≤ p)
    (hidx : p - 1 < ((f1 :: rest).map (fun f => f.content)).length) (x y : Nat)
    (hx : x < f0.content.width)
    (hy : y < subtitleHeight f0.content.height subtitle_ratio) :
    ∃ s, merge_screenshots_with_subtitles k dir subtitle_ratio = Except.ok s ∧
      s.saved.pixel x
          (f0.content.height + subtitleHeight f0.content.height subtitle_ratio * (p - 1) + y)
        = (subtitleCrop f0.content.width (subtitleHeight f0.content.height subtitle_ratio)
            (normalizeImage k f0.content.width
              (((f1 :: rest).map (fun f => f.content)).get ⟨p - 1, hidx⟩))).pixel x y := by
  refine ⟨_, merge_eq_ok k dir subtitle_ratio f0 f1 rest h, ?_⟩
  simp only [mergeCore]
  have hidx' : p - 1 < (((f1 :: rest).map (fun f => f.content)).map
      (normalizeImage k f0.content.width)).length := by
    simpa using hidx
  have hband := pasteSubtitles_pixel_band f0.content.width
    (subtitleHeight f0.content.height subtitle_ratio) f0.content.height
    (((f1 :: rest).map (fun f => f.content)).map (normalizeImage k f0.content.width))
    1
    (paste
      (imageNew f0.content.width
        (f0.content.height + subtitleHeight f0.content.height subtitle_ratio
          * (f1 :: rest).length)
        whitePixel)
      f0.content 0 0)
    (p - 1) hidx' x y le_rfl hx hy
  rw [show (1 : Nat) - 1 + (p - 1) = p - 1 from by omega] at hband
  rw [hband]
  congr 1
  rw [List.get_map]

/-- Witness for C2: position 1 on the two-image directory, pixel (0,0) of the
band. -/
theorem C2_witness :
    ∃ s, merge_screenshots_with_subtitles kZero dirW 3 = Except.ok s ∧
      s.saved.pixel 0 (6 + subtitleHeight 6 3 * 0 + 0)
        = (subtitleCrop 8 (subtitleHeight 6 3)
            (normalizeImage kZero 8 (([fB].map (fun f => f.content)).get ⟨0, by simp⟩))).pixel 0 0 :=
  C2_band_content kZero dirW 3 fA fB [] rfl 1 le_rfl (by simp) 0 0 (by decide)
    (show (0:ℕ) < subtitleHeight 6 3 from by rw [subtitleHeight_6_3]; decide)

/-- C3 counterexample: the code computes the rescaled height with Python
`int()` (truncation), not standard rounding.  A 3×1 image rescaled to
reference width 5 gets height `int(1 * 5/3) = 1`, while
`round(1 * 5/3) = 2`. -/
theorem C3_counterexample :
    (normalizeImage kZero 5 imgNarrow).height = 1 ∧
    specRoundedHeight 1 5 3 = 2 ∧
    ((normalizeImage kZero 5 imgNarrow).height : Int) ≠ specRoundedHeight 1 5 3 := by
  have h1 : (normalizeImage kZero 5 imgNarrow).height = 1 := rfl
  have h2 : specRoundedHeight 1 5 3 = 2 := by
    simp only [specRoundedHeight]
    rw [round_eq]
    push_cast
    norm_num
  exact ⟨h1, h2, by rw [h1, h2]; decide⟩

/-- C3 (amended): for every non-first image whose width differs from
`targetWidth`, the rescaled height is `⌊originalHeight * targetWidth /
originalWidth⌋` (truncating division, Python `int()`), and the image is
resampled to `(targetWidth, newHeight)`; the spec's scenario 400×300 → 800×600
is unaffected because its ratio is exact. -/
theorem C3_resize_dimensions (k : ResampleKernel) (target_width : Nat) (img : ImageBuffer)
    (hw : img.width ≠ target_width) :
    (normalizeImage k target_width img).width = target_width ∧
    (normalizeImage k target_width img).height = img.height * target_width / img.width := by
  rw [normalizeImage, if_pos hw]
  exact ⟨rfl, rfl⟩

/-- Witness for C3: the spec's scenario — a 400×300 image with reference
width 800 is normalized to 800×600. -/
theorem C3_witness :
    (normalizeImage kZero 800 img400).width = 800 ∧
    (normalizeImage kZero 800 img400).height = 600 := by
  have h := C3_resize_dimensions kZero 800 img400 (by decide)
  exact ⟨h.1, by rw [h.2]; decide⟩

/-- C4: a directory with fewer than two qualifying images makes the operation
fail with the input error; no `MergeSuccess` (hence no saved canvas) is
produced. -/
theorem C4_input_error (k : ResampleKernel) (dir : List DirFile) ( subtitle_ratio : ℚ)
    (h : (qualifying dir).length < 2) :
    merge_screenshots_with_subtitles k dir subtitle_ratio
      = Except.error MergeError.inputError := by
  rcases hq : qualifying dir with _ | ⟨a, _ | ⟨b, l⟩⟩
  · unfold merge_screenshots_with_subtitles
    rw [hq]
  · unfold merge_screenshots_with_subtitles
    rw [hq]
  · rw [hq] at h
    simp at h
    omega

/-- Witness for C4: a directory with one `.png` and one `.jpg` file. -/
theorem C4_witness :
    (qualifying dirOne).length < 2 ∧
    merge_screenshots_with_subtitles kZero dirOne 6
      = Except.error MergeError.inputError :=
  ⟨by decide, C4_input_error kZero dirOne 6 (by decide)⟩

/-- C6 counterexample: the Python function has no `return` statement, so on a
valid two-image input it returns `None`, not the composite canvas. -/
theorem C6_counterexample :
    ∃ s, merge_screenshots_with_subtitles kZero dirW 3 = Except.ok s ∧
      s.returnValue = none ∧ s.returnValue ≠ some s.saved :=
  ⟨mergeCore kZero fA [fB] 3, rfl, rfl, fun hcontra => Option.noConfusion hcontra⟩

/-- C6 (amended): for every valid input (≥ 2 qualifying images) the merge
succeeds, the composite canvas is saved to the output path, and the function's
result value is `None` — the canvas is not returned. -/
theorem C6_returns_none (k : ResampleKernel) (dir : List DirFile) ( subtitle_ratio : ℚ)
    (f0 f1 : DirFile) (rest : List DirFile) (h : qualifying dir = f0 :: f1 :: rest) :
    ∃ s, merge_screenshots_with_subtitles k dir subtitle_ratio = Except.ok s ∧
      s.returnValue = none :=
  ⟨_, merge_eq_ok k dir subtitle_ratio f0 f1 rest h, rfl⟩

/-- Witness for C6 (amended). -/
theorem C6_witness :
    ∃ s, merge_screenshots_with_subtitles kZero dirW 6 = Except.ok s ∧
      s.returnValue = none :=
  C6_returns_none kZero dirW 6 fA fB [] rfl

/-- C7: the first (sorted) image is never resized — any image whose width
already equals the target passes through normalization unchanged, and the
first image's pixel data appears unchanged at canvas origin (0,0), occupying
its full height. -/
theorem C7_first_unchanged (k : ResampleKernel) (dir : List DirFile) ( subtitle_ratio : ℚ)
    (f0 f1 : DirFile) (rest : List DirFile) (h : qualifying dir = f0 :: f1 :: rest) :
    (∀ img : ImageBuffer, img.width = f0.content.width →
      normalizeImage k f0.content.width img = img) ∧
    ∃ s, merge_screenshots_with_subtitles k dir subtitle_ratio = Except.ok s ∧
      ∀ x y, x < f0.content.width → y < f0.content.height →
        s.saved.pixel x y = f0.content.pixel x y := by
  refine ⟨fun img hw => ?_, _, merge_eq_ok k dir subtitle_ratio f0 f1 rest h,
    fun x y hx hy => mergeCore_first_region k f0 (f1 :: rest) subtitle_ratio x y hx hy⟩
  rw [normalizeImage, if_neg]
  intro hcontra
  exact hcontra hw

/-- Witness for C7. -/
theorem C7_witness :
    (∀ img : ImageBuffer, img.width = 8 → normalizeImage kZero 8 img = img) ∧
    ∃ s, merge_screenshots_with_subtitles kZero dirW 3 = Except.ok s ∧
      ∀ x y, x < 8 → y < 6 → s.saved.pixel x y = imgA.pixel x y :=
  C7_first_unchanged kZero dirW 3 fA fB [] rfl

/-- C9: when a normalized non-first image is shorter than the subtitle band,
the crop's top coordinate is negative, the extracted band still has height
`subtitleHeight` (no clamping to the image height), and the merge still
succeeds — no validation error is raised. -/
theorem C9_crop_underflow (k : ResampleKernel) (dir : List DirFile) ( subtitle_ratio : ℚ)
    (f0 f1 : DirFile) (rest : List DirFile) (h : qualifying dir = f0 :: f1 :: rest)
    (img : ImageBuffer)
    (hmem : img ∈ ((f1 :: rest).map (fun f => f.content)).map
      (normalizeImage k f0.content.width))
    (hlt : img.height < subtitleHeight f0.content.height subtitle_ratio) :
    ((img.height : Int) - (subtitleHeight f0.content.height subtitle_ratio : Int) < 0) ∧
    (subtitleCrop f0.content.width (subtitleHeight f0.content.height subtitle_ratio)
        img).height
      = subtitleHeight f0.content.height subtitle_ratio ∧
    ∃ s, merge_screenshots_with_subtitles k dir subtitle_ratio = Except.ok s :=
  ⟨by omega, subtitleCrop_height _ _ _, _, merge_eq_ok k dir subtitle_ratio f0 f1 rest h⟩

/-- Witness for C9: an 8×8 first image with ratio 2 (band height 4) and an
8×2 second image. -/
theorem C9_witness :
    ((2 : Int) - (subtitleHeight 8 2 : Int) < 0) ∧
    (subtitleCrop 8 (subtitleHeight 8 2) imgTiny).height = subtitleHeight 8 2 ∧
    ∃ s, merge_screenshots_with_subtitles kZero dirTiny 2 = Except.ok s :=
  C9_crop_underflow kZero dirTiny 2 fTall fTiny [] rfl imgTiny
    (List.mem_singleton.mpr rfl)
    (show (2:ℕ) < subtitleHeight 8 2 from by rw [subtitleHeight_8_2]; decide)

/-- C10: when the subtitle ratio strictly exceeds the first image's height,
the subtitle height computes to 0, every subtitle band is an empty
(zero-height) crop, and the merge still succeeds with canvas height exactly
the first image's height. -/
theorem C10_ratio_exceeds_height (k : ResampleKernel) (dir : List DirFile) ( subtitle_ratio : ℚ)
    (f0 f1 : DirFile) (rest : List DirFile) (h : qualifying dir = f0 :: f1 :: rest)
    (hr : (f0.content.height : ℚ) < subtitle_ratio) :
    subtitleHeight f0.content.height subtitle_ratio = 0 ∧
    (∀ img : ImageBuffer,
      (subtitleCrop f0.content.width (subtitleHeight f0.content.height subtitle_ratio)
        img).height = 0) ∧
    ∃ s, merge_screenshots_with_subtitles k dir subtitle_ratio = Except.ok s ∧
      s.saved.height = f0.content.height := by
  have hpos : (0 : ℚ) < subtitle_ratio := lt_of_le_of_lt (Nat.cast_nonneg _) hr
  have hsh : subtitleHeight f0.content.height subtitle_ratio = 0 := by
    unfold subtitleHeight
    rw [Int.floor_eq_zero_iff.mpr
      ⟨div_nonneg (Nat.cast_nonneg _) (le_of_lt hpos), (div_lt_one hpos).mpr hr⟩]
    rfl
  refine ⟨hsh, fun img => (subtitleCrop_height _ _ img).trans hsh,
    _, merge_eq_ok k dir subtitle_ratio f0 f1 rest h, ?_⟩
  rw [mergeCore_saved_height, hsh]
  simp

/-- Witness for C10: two 8×6 images with ratio 7 > 6. -/
theorem C10_witness :
    subtitleHeight 6 7 = 0 ∧
    (∀ img : ImageBuffer, (subtitleCrop 8 (subtitleHeight 6 7) img).height = 0) ∧
    ∃ s, merge_screenshots_with_subtitles kZero dirW 7 = Except.ok s ∧
      s.saved.height = 6 :=
  C10_ratio_exceeds_height kZero dirW 7 fA fB [] rfl
    (show ((6:ℕ) : ℚ) < 7 from by norm_num)

/-! Machinery for the discovery-order claims: the sort commutes with
metadata-only rewrites of the directory entries, and a sorted permutation of
a list with distinct filenames is unique. -/

/-- Inserting into a sorted list commutes with a name-preserving rewrite of
the entries. -/
theorem orderedInsert_map (g : DirFile → DirFile) (hgn : ∀ f, (g f).name = f.name)
    (a : DirFile) (l : List DirFile) :
    List.orderedInsert nameLe (g a) (l.map g) = (List.orderedInsert nameLe a l).map g := by
  induction l with
  | nil => rfl
  | cons b t ih =>
      simp only [List.map_cons, List.orderedInsert]
      by_cases hab : nameLe a b
      · rw [if_pos (show nameLe (g a) (g b) from by
          unfold nameLe; rw [hgn a, hgn b]; exact hab), if_pos hab]
        rfl
      · rw [if_neg (show ¬ nameLe (g a) (g b) from by
          unfold nameLe; rw [hgn a, hgn b]; exact hab), if_neg hab, List.map_cons, ih]

/-- The filename sort commutes with a name-preserving rewrite of the
entries. -/
theorem insertionSort_map (g : DirFile → DirFile) (hgn : ∀ f, (g f).name = f.name)
    (l : List DirFile) :
    List.insertionSort nameLe (l.map g) = (List.insertionSort nameLe l).map g := by
  induction l with
  | nil => rfl
  | cons a t ih =>
      simp only [List.map_cons, List.insertionSort, ih, orderedInsert_map g hgn]

/-- Discovery commutes with a name-preserving rewrite of the directory
entries: the qualifying list of the rewritten directory is the rewritten
qualifying list. -/
theorem qualifying_map (g : DirFile → DirFile) (hgn : ∀ f, (g f).name = f.name)
    (dir : List DirFile) :
    qualifying (dir.map g) = (qualifying dir).map g := by
  unfold qualifying
  rw [List.filter_map, List.filter_congr (fun x _ => by
    simp only [Function.comp]
    rw [hgn x]), insertionSort_map g hgn]

/-- The compositing pipeline reads only names and contents, so a rewrite of
the entries that preserves both gives the same result. -/
theorem mergeCore_map (k : ResampleKernel) (g : DirFile → DirFile)
    (hgn : ∀ f, (g f).name = f.name) (hgc : ∀ f, (g f).content = f.content)
    (f0 : DirFile) (tail : List DirFile) ( subtitle_ratio : ℚ) :
    mergeCore k (g f0) (tail.map g) subtitle_ratio = mergeCore k f0 tail subtitle_ratio := by
  have h1 : (tail.map g).map (fun f => f.content) = tail.map (fun f => f.content) := by
    rw [List.map_map]
    exact List.map_congr_left (fun f _ => hgc f)
  have h2 : (tail.map g).map (fun f => f.name) = tail.map (fun f => f.name) := by
    rw [List.map_map]
    exact List.map_congr_left (fun f _ => hgn f)
  have h3 : (tail.map g).length = tail.length := List.length_map tail g
  unfold mergeCore
  rw [hgc f0, hgn f0, h1, h2, h3]

/-- File metadata (anything other than name and content, such as creation
time) never affects the output of the merge. -/
theorem merge_map_invariant (k : ResampleKernel) (g : DirFile → DirFile)
    (hgn : ∀ f, (g f).name = f.name) (hgc : ∀ f, (g f).content = f.content)
    (dir : List DirFile) ( subtitle_ratio : ℚ) :
    merge_screenshots_with_subtitles k (dir.map g) subtitle_ratio
      = merge_screenshots_with_subtitles k dir subtitle_ratio := by
  unfold merge_screenshots_with_subtitles
  rw [qualifying_map g hgn dir]
  rcases qualifying dir with _ | ⟨f0, _ | ⟨f1, rest⟩⟩
  · rfl
  · rfl
  · simp only [List.map_cons]
    rw [show g f1 :: (rest.map g) = (f1 :: rest).map g from rfl,
      mergeCore_map k g hgn hgc f0 (f1 :: rest) subtitle_ratio]

/-- A sorted permutation of a qualifying list with distinct filenames is
unique. -/
theorem sorted_perm_unique (l₁ l₂ : List DirFile) (hperm : l₁.Perm l₂)
    (hs₁ : List.Sorted nameLe l₁) (hs₂ : List.Sorted nameLe l₂)
    (hnd : (l₁.map (fun f => f.name)).Nodup) : l₁ = l₂ := by
  have hnd₂ : (l₂.map (fun f => f.name)).Nodup := ((hperm.map _).nodup_iff).mp hnd
  have hstrict : ∀ (l : List DirFile), List.Sorted nameLe l →
      (l.map (fun f => f.name)).Nodup →
      List.Pairwise (fun a b : DirFile => a.name.data < b.name.data) l := by
    intro l hs hn
    have hne : List.Pairwise (fun a b : DirFile => a.name ≠ b.name) l :=
      List.pairwise_map.mp hn
    exact (hs.and hne).imp (fun hab =>
      lt_of_le_of_ne hab.1 (fun hdata => hab.2 (by
        apply congrArg String.mk hdata)))
  haveI : IsAntisymm DirFile (fun a b : DirFile => a.name.data < b.name.data) :=
    ⟨fun a b h1 h2 => absurd h2 (lt_asymm h1)⟩
  exact List.eq_of_perm_of_sorted hperm (hstrict l₁ hs₁ hnd) (hstrict l₂ hs₂ hnd₂)

/-- Two listings of the same directory contents (permutations of each other,
filenames distinct as in a real directory) yield the same qualifying list. -/
theorem qualifying_perm_eq (dir1 dir2 : List DirFile) (hperm : dir1.Perm dir2)
    (hnodup : (dir1.map (fun f => f.name)).Nodup) :
    qualifying dir1 = qualifying dir2 := by
  have hpf : (dir1.filter (fun f => qualifies f.name)).Perm
      (dir2.filter (fun f => qualifies f.name)) := hperm.filter _
  have hq : (qualifying dir1).Perm (qualifying dir2) :=
    (List.perm_insertionSort nameLe _).trans
      (hpf.trans (List.perm_insertionSort nameLe _).symm)
  have hndq : ((qualifying dir1).map (fun f => f.name)).Nodup := by
    have hsub : ((dir1.filter (fun f => qualifies f.name)).map (fun f => f.name)).Sublist
        (dir1.map (fun f => f.name)) :=
      (List.filter_sublist dir1).map _
    have hndf : ((dir1.filter (fun f => qualifies f.name)).map (fun f => f.name)).Nodup :=
      hsub.nodup hnodup
    exact (((List.perm_insertionSort nameLe
      (dir1.filter (fun f => qualifies f.name))).map _).nodup_iff).mpr hndf
  exact sorted_perm_unique _ _ hq (List.sorted_insertionSort nameLe _)
    (List.sorted_insertionSort nameLe _) hndq

/-- C5: the set of processed files is exactly those whose name ends
case-insensitively with `.png`; the stacking order is ascending lexicographic
filename order; and file metadata such as creation time never affects the
output (rewriting every entry's metadata while keeping names and contents
fixed leaves the result unchanged). -/
theorem C5_discovery_order (k : ResampleKernel) (dir : List DirFile) ( subtitle_ratio : ℚ)
    (g : DirFile → DirFile) (hgn : ∀ f, (g f).name = f.name)
    (hgc : ∀ f, (g f).content = f.content) :
    (∀ f, f ∈ qualifying dir ↔ f ∈ dir ∧ qualifies f.name = true) ∧
    List.Sorted nameLe (qualifying dir) ∧
    merge_screenshots_with_subtitles k (dir.map g) subtitle_ratio
      = merge_screenshots_with_subtitles k dir subtitle_ratio := by
  refine ⟨fun f => ?_, List.sorted_insertionSort nameLe _,
    merge_map_invariant k g hgn hgc dir subtitle_ratio⟩
  unfold qualifying
  rw [(List.perm_insertionSort nameLe _).mem_iff, List.mem_filter]

/-- A metadata rewrite that shifts every creation time but keeps names and
contents. -/
def bumpCtime : DirFile → DirFile := fun f => ⟨f.name, f.ctime + 7, f.content⟩

/-- Witness for C5. -/
theorem C5_witness :
    (∀ f, f ∈ qualifying dirW ↔ f ∈ dirW ∧ qualifies f.name = true) ∧
    List.Sorted nameLe (qualifying dirW) ∧
    merge_screenshots_with_subtitles kZero (dirW.map bumpCtime) 6
      = merge_screenshots_with_subtitles kZero dirW 6 :=
  C5_discovery_order kZero dirW 6 bumpCtime (fun _ => rfl) (fun _ => rfl)

/-- C8: the operation is deterministic — two listings of the same unchanged
directory (permutations of each other, filenames distinct as in a real
directory) with the same subtitle ratio produce identical outputs; the
filename sort removes the listing-order nondeterminism of `os.listdir`. -/
theorem C8_deterministic (k : ResampleKernel) ( subtitle_ratio : ℚ)
    (dir1 dir2 : List DirFile) (hperm : dir1.Perm dir2)
    (hnodup : (dir1.map (fun f => f.name)).Nodup) :
    merge_screenshots_with_subtitles k dir1 subtitle_ratio
      = merge_screenshots_with_subtitles k dir2 subtitle_ratio := by
  unfold merge_screenshots_with_subtitles
  rw [qualifying_perm_eq dir1 dir2 hperm hnodup]

/-- Witness for C8: the two listing orders of the test directory. -/
theorem C8_witness :
    merge_screenshots_with_subtitles kZero [fB, fA] 6
      = merge_screenshots_with_subtitles kZero [fA, fB] 6 :=
  C8_deterministic kZero 6 [fB, fA] [fA, fB] (List.Perm.swap fA fB []) (by decide)

end CaptionStack
